import Mathlib

/-!
# Medicare Hospital Management System — verification of the storage layer

Shallow embedding of the server-side data model and operations of the
Medicare hospital-administration application:

* `shared/schema.ts`   — table definitions (entities, status enumerations,
  column defaults, foreign keys);
* `server/storage.ts`  — `DatabaseStorage` operations (`createPatient`,
  `createAdmission`, `dischargePatient`, `createBill`, `recordPayment`,
  `upsertUser`, `updateUserRole`, status-filtered listings);
* `server/routes.ts`   — HTTP route handlers (the bill-creation handler, the
  admission handler, the status-filter query plumbing);
* `server/replitAuth.ts` — the `isAuthenticated` middleware.

The relational store is modelled as lists of records; SQL `UPDATE ... WHERE`
becomes a `List.map` over rows, `INSERT ... RETURNING` an append, row lookup a
`List.find?`.  Generated `gen_random_uuid()` identifiers are drawn from a
`nextId` counter in the store (primary-key uniqueness is carried as a `Nodup`
hypothesis where a proof needs it).  `now()` timestamps come from a `now`
field.  Monetary `decimal` columns (parsed with `parseFloat` in the code) are
modelled as rationals.  Status columns are `varchar` in the schema, so they
are modelled as `String` (this matters: a status *filter* is compared against
the column by plain equality, whatever the string is).
-/

namespace Medicare

/-! ## Data model (shared/schema.ts) -/

/-- A row of the `users` table.  `id` is the OIDC subject (a string);
`role` defaults to `"patient"` in the schema. -/
structure User where
  id : String
  email : Option String
  firstName : Option String
  lastName : Option String
  profileImageUrl : Option String
  role : String
  phone : Option String
  createdAt : Nat
  updatedAt : Nat
  deriving Repr, DecidableEq

/-- The user payload built from OIDC claims in `replitAuth.ts` (`verify`):
subject id, email, given name, family name, picture.  It carries no role. -/
structure UpsertUser where
  id : String
  email : Option String
  firstName : Option String
  lastName : Option String
  profileImageUrl : Option String
  deriving Repr, DecidableEq

/-- A row of the `patients` table (the fields the verified operations touch).
`patientId` is the generated human-readable code `PAT-XXXXX`. -/
structure Patient where
  id : Nat
  patientId : String
  firstName : String
  lastName : String
  phone : String
  deriving Repr, DecidableEq

/-- Insert payload for `patients` (`InsertPatient` omits `id`, timestamps and
the generated `patientId`). -/
structure InsertPatient where
  firstName : String
  lastName : String
  phone : String
  deriving Repr, DecidableEq

/-- A row of the `appointments` table (fields used by the listings). -/
structure Appointment where
  id : Nat
  patientId : Nat
  doctorId : Nat
  status : String
  deriving Repr, DecidableEq

/-- A row of the `lab_tests` table (fields used by the listings). -/
structure LabTest where
  id : Nat
  patientId : Nat
  status : String
  deriving Repr, DecidableEq

/-- A row of the `beds` table; `status` defaults to `"available"`. -/
structure Bed where
  id : Nat
  wardId : Nat
  bedNumber : String
  status : String
  deriving Repr, DecidableEq

/-- A row of the `admissions` table; `status` defaults to `"admitted"`,
`dischargeDate` is nullable. -/
structure Admission where
  id : Nat
  patientId : Nat
  bedId : Nat
  doctorId : Option Nat
  admissionDate : Nat
  dischargeDate : Option Nat
  status : String
  deriving Repr, DecidableEq

/-- Insert payload for `admissions` (`InsertAdmission`): `status` is optional
and the schema default `"admitted"` applies when it is absent. -/
structure InsertAdmission where
  patientId : Nat
  bedId : Nat
  doctorId : Option Nat
  status : Option String
  deriving Repr, DecidableEq

/-- A bill line item `{description, quantity, rate, amount}` as stored in the
`items` jsonb column.  All three numbers are client-supplied. -/
structure BillItem where
  description : String
  quantity : ℚ
  rate : ℚ
  amount : ℚ
  deriving Repr, DecidableEq

/-- A row of the `bills` table.  `paidAmount` defaults to `0`,
`paymentStatus` to `"pending"`, `paymentMethod` is nullable. -/
structure Bill where
  id : Nat
  billNumber : String
  patientId : Nat
  items : List BillItem
  subtotal : ℚ
  total : ℚ
  paidAmount : ℚ
  paymentStatus : String
  paymentMethod : Option String
  updatedAt : Nat
  deriving Repr, DecidableEq

/-- The entity store: one list of rows per table, plus the id source
(`gen_random_uuid()`) and the clock (`now()` / `new Date()`). -/
structure Store where
  users : List User
  patients : List Patient
  appointments : List Appointment
  labTests : List LabTest
  beds : List Bed
  admissions : List Admission
  bills : List Bill
  nextId : Nat
  now : Nat
  deriving Repr, DecidableEq

/-- The empty store. -/
def Store.empty : Store :=
  { users := [], patients := [], appointments := [], labTests := [], beds := []
    admissions := [], bills := [], nextId := 0, now := 0 }

/-! ## Decimal rendering and zero padding

`createPatient` and `createBill` build codes with
`String(count + 1).padStart(width, "0")`.  `decChars` is the standard decimal
rendering of a natural number (structural on a fuel argument so that it
evaluates by kernel reduction), `padList` is `padStart` on character lists. -/

/-- Decimal digits of `n`, most significant first, prepended to `acc`;
`fuel ≥ n ≥ 1` suffices. -/
def decCharsGo : Nat → Nat → List Char → List Char
  | 0, _, acc => acc
  | fuel + 1, n, acc =>
    let acc' := Nat.digitChar (n % 10) :: acc
    if n / 10 = 0 then acc' else decCharsGo fuel (n / 10) acc'

/-- Decimal rendering of a natural number (`String(n)` in the source). -/
def decChars (n : Nat) : List Char :=
  if n = 0 then ['0'] else decCharsGo n n []

/-- `padStart(width, "0")`: left-pad with `'0'` up to `width`; longer lists
are returned unchanged. -/
def padList (width : Nat) (l : List Char) : List Char :=
  List.replicate (width - l.length) '0' ++ l

/-- The generated patient code:
`` `PAT-${String(count + 1).padStart(5, "0")}` `` applied to `n = count + 1`. -/
def mkPatientCode (n : Nat) : String :=
  "PAT-" ++ String.mk (padList 5 (decChars n))

/-- The generated invoice number:
`` `INV-${String(count + 1).padStart(6, "0")}` `` applied to `n = count + 1`. -/
def mkBillNumber (n : Nat) : String :=
  "INV-" ++ String.mk (padList 6 (decChars n))

/-! ## DatabaseStorage operations (server/storage.ts) -/

/-- `DatabaseStorage.createPatient`: `count(*)` over `patients`, generated
code `PAT-` + 5-zero-padded `count + 1`, then insert. -/
def createPatient (st : Store) (p : InsertPatient) : Patient × Store :=
  let count := st.patients.length
  let patientId := mkPatientCode (count + 1)
  let newPatient : Patient :=
    { id := st.nextId, patientId := patientId, firstName := p.firstName
      lastName := p.lastName, phone := p.phone }
  (newPatient,
    { st with patients := st.patients ++ [newPatient], nextId := st.nextId + 1 })

/-- `DatabaseStorage.createBill`: `count(*)` over `bills`, generated number
`INV-` + 6-zero-padded `count + 1`, then insert.  Column defaults from the
schema: `paidAmount = 0`, `paymentStatus = "pending"`, no payment method. -/
def createBill (st : Store) (patientId : Nat) (items : List BillItem)
    (subtotal total : ℚ) : Bill × Store :=
  let count := st.bills.length
  let billNumber := mkBillNumber (count + 1)
  let newBill : Bill :=
    { id := st.nextId, billNumber := billNumber, patientId := patientId
      items := items, subtotal := subtotal, total := total, paidAmount := 0
      paymentStatus := "pending", paymentMethod := none, updatedAt := st.now }
  (newBill, { st with bills := st.bills ++ [newBill], nextId := st.nextId + 1 })

/-- `DatabaseStorage.recordPayment`: look the bill up; if absent return
nothing.  Otherwise `newPaidAmount = paidAmount + amount`, status `"paid"`
when `newPaidAmount ≥ total` and `"partial"` otherwise; persist `paidAmount`,
`paymentStatus`, `paymentMethod` and the updated timestamp. -/
def recordPayment (st : Store) (id : Nat) (amount : ℚ) (method : String) :
    Option Bill × Store :=
  match st.bills.find? (fun b => b.id == id) with
  | none => (none, st)
  | some bill =>
    let newPaidAmount := bill.paidAmount + amount
    let total := bill.total
    let newStatus : String := if newPaidAmount ≥ total then "paid" else "partial"
    let upd : Bill → Bill := fun b =>
      if b.id == id then
        { b with paidAmount := newPaidAmount, paymentStatus := newStatus
                 paymentMethod := some method, updatedAt := st.now }
      else b
    (some (upd bill), { st with bills := st.bills.map upd })

/-- `DatabaseStorage.createAdmission`: insert the admission row (theschema's
foreign keys `admissions.patientId → patients.id` and
`admissions.bedId → beds.id` make the insert fail when a referenced row is
missing), then unconditionally set the referenced bed's status to
`"occupied"`.  The admission's status takes the schema default `"admitted"`
when the payload leaves it out. -/
def createAdmission (st : Store) (ins : InsertAdmission) :
    Except String (Admission × Store) :=
  if (st.patients.find? (fun p => p.id == ins.patientId)).isNone then
    Except.error "foreign key violation: admissions_patient_id_fkey"
  else if (st.beds.find? (fun b => b.id == ins.bedId)).isNone then
    Except.error "foreign key violation: admissions_bed_id_fkey"
  else
    let newAdmission : Admission :=
      { id := st.nextId, patientId := ins.patientId, bedId := ins.bedId
        doctorId := ins.doctorId, admissionDate := st.now, dischargeDate := none
        status := ins.status.getD "admitted" }
    let st₁ := { st with admissions := st.admissions ++ [newAdmission]
                         nextId := st.nextId + 1 }
    let st₂ := { st₁ with
      beds := st₁.beds.map (fun b =>
        if b.id == ins.bedId then { b with status := "occupied" } else b) }
    Except.ok (newAdmission, st₂)

/-- `DatabaseStorage.dischargePatient`: `UPDATE admissions SET status =
'discharged', dischargeDate = now() WHERE id = ...` returning the updated row
(or nothing when no row matches); when a row was updated, set its bed's
status back to `"available"`. -/
def dischargePatient (st : Store) (id : Nat) : Option Admission × Store :=
  match st.admissions.find? (fun a => a.id == id) with
  | none => (none, st)
  | some adm =>
    let updRow : Admission → Admission := fun a =>
      if a.id == id then
        { a with status := "discharged", dischargeDate := some st.now }
      else a
    let updated := updRow adm
    let st₁ := { st with admissions := st.admissions.map updRow }
    let st₂ := { st₁ with
      beds := st₁.beds.map (fun b =>
        if b.id == updated.bedId then { b with status := "available" } else b) }
    (some updated, st₂)

/-- `DatabaseStorage.upsertUser`: insert keyed on `users.id`; on conflict
update only `email`, `firstName`, `lastName`, `profileImageUrl` and
`updatedAt`.  A fresh row takes the schema's role default `"patient"`. -/
def upsertUser (st : Store) (u : UpsertUser) : User × Store :=
  match st.users.find? (fun x => x.id == u.id) with
  | some existing =>
    let updated : User :=
      { existing with email := u.email, firstName := u.firstName
                      lastName := u.lastName, profileImageUrl := u.profileImageUrl
                      updatedAt := st.now }
    (updated,
      { st with users := st.users.map (fun x => if x.id == u.id then
          { x with email := u.email, firstName := u.firstName
                   lastName := u.lastName, profileImageUrl := u.profileImageUrl
                   updatedAt := st.now }
        else x) })
  | none =>
    let newUser : User :=
      { id := u.id, email := u.email, firstName := u.firstName
        lastName := u.lastName, profileImageUrl := u.profileImageUrl
        role := "patient", phone := none, createdAt := st.now, updatedAt := st.now }
    (newUser, { st with users := st.users ++ [newUser] })

/-- `DatabaseStorage.updateUserRole`: set `role` and `updatedAt` on the row
with the given id, returning the updated row when one matched. -/
def updateUserRole (st : Store) (id : String) (role : String) :
    Option User × Store :=
  match st.users.find? (fun x => x.id == id) with
  | none => (none, st)
  | some existing =>
    let upd : User → User := fun x =>
      if x.id == id then { x with role := role, updatedAt := st.now } else x
    (some (upd existing), { st with users := st.users.map upd })

/-! ## Status-filtered listings (server/storage.ts) -/

/-- `DatabaseStorage.getAppointments`: filter by exact status when one is
given, else return every row. -/
def getAppointments (st : Store) : Option String → List Appointment
  | some s => st.appointments.filter (fun a => a.status == s)
  | none => st.appointments

/-- `DatabaseStorage.getLabTests`: filter by exact status when one is given,
else return every row. -/
def getLabTests (st : Store) : Option String → List LabTest
  | some s => st.labTests.filter (fun t => t.status == s)
  | none => st.labTests

/-- `DatabaseStorage.getAdmissions`: filter by exact status when one is
given, else return every row. -/
def getAdmissions (st : Store) : Option String → List Admission
  | some s => st.admissions.filter (fun a => a.status == s)
  | none => st.admissions

/-- `DatabaseStorage.getBills`: filter by exact `paymentStatus` when one is
given, else return every row. -/
def getBills (st : Store) : Option String → List Bill
  | some s => st.bills.filter (fun b => b.paymentStatus == s)
  | none => st.bills

/-! ## Route handlers (server/routes.ts) -/

/-- `GET /api/appointments`: the handler maps the query value `"all"` to "no
filter" (`status !== "all" ? status : undefined`). -/
def appointmentsRoute (st : Store) (status : Option String) : List Appointment :=
  getAppointments st (if status == some "all" then none else status)

/-- `GET /api/lab-tests`: same `"all"` mapping as appointments. -/
def labTestsRoute (st : Store) (status : Option String) : List LabTest :=
  getLabTests st (if status == some "all" then none else status)

/-- `GET /api/admissions`: the query value is handed to the storage layer
unchanged — no `"all"` mapping. -/
def admissionsRoute (st : Store) (status : Option String) : List Admission :=
  getAdmissions st status

/-- `GET /api/bills`: the query value is handed to the storage layer
unchanged — no `"all"` mapping. -/
def billsRoute (st : Store) (status : Option String) : List Bill :=
  getBills st status

/-- Sum of the client-supplied `amount` fields:
`items.reduce((sum, item) => sum + item.amount, 0)` in the handler. -/
def sumAmounts (items : List BillItem) : ℚ :=
  items.foldl (fun sum item => sum + item.amount) 0

/-- Sum of `quantity × rate` over the items (the spec's formula; the client
computes each `amount` this way before posting). -/
def sumQuantityRate (items : List BillItem) : ℚ :=
  items.foldl (fun sum item => sum + item.quantity * item.rate) 0

/-- `POST /api/bills`: compute `subtotal` as the sum of the items' `amount`
fields and create the bill with `total = subtotal`.  Responds 201. -/
def postBills (st : Store) (patientId : Nat) (items : List BillItem) :
    (Nat × Bill × Store) :=
  let subtotal := sumAmounts items
  let (bill, st') := createBill st patientId items subtotal subtotal
  (201, bill, st')

/-- `POST /api/admissions`: a successful insert responds 201; any storage
error (including a foreign-key violation from a missing bed or patient) is
caught and converted to a generic 500, leaving the store as it was. -/
def postAdmissions (st : Store) (body : InsertAdmission) : Nat × Store :=
  match createAdmission st body with
  | Except.ok (_, st') => (201, st')
  | Except.error _ => (500, st)

/-- A route handler: store in, HTTP status and store out. -/
def Handler : Type := Store → Nat × Store

/-- `POST /api/patients`: create the patient, respond 201. -/
def postPatients (body : InsertPatient) : Handler := fun st =>
  (201, (createPatient st body).2)

/-- The `isAuthenticated` middleware from `replitAuth.ts`: when
`REPLIT_DEPLOYMENT_ID` is not configured it installs a demo user and lets
every request through; otherwise a request without a valid session is
answered 401 and the handler never runs. -/
def isAuthenticated (deploymentConfigured : Bool) (hasSession : Bool)
    (handler : Handler) : Handler := fun st =>
  if !deploymentConfigured then handler st
  else if hasSession then handler st
  else (401, st)

/-! ## Spec-side predicates -/

/-- The payment-status rule as the specification words it: `paid` iff
`paidAmount ≥ total`, else `partial` if `paidAmount > 0`, else `pending`. -/
def specPaymentStatus (paidAmount total : ℚ) : String :=
  if paidAmount ≥ total then "paid"
  else if paidAmount > 0 then "partial"
  else "pending"

/-! ## Concrete fixtures used by witnesses and counterexamples -/

/-- A bill with total 1000 and nothing paid, as in the spec's payment test. -/
def bill1000 : Bill :=
  { id := 1, billNumber := "INV-000001", patientId := 1, items := []
    subtotal := 1000, total := 1000, paidAmount := 0
    paymentStatus := "pending", paymentMethod := none, updatedAt := 0 }

/-- A store holding just `bill1000`. -/
def billStore : Store := { Store.empty with bills := [bill1000], nextId := 2 }

/-! ## Billing theorems -/

/-- Claim C2: payment accumulation (functional spec of `recordPayment` on an
existing bill): the returned bill adds `amount` to `paidAmount`, derives the status
from `paidAmount + amount ≥ total`, records the method, refreshes the
timestamp and is stored. -/
theorem recordPayment_spec (st : Store) (id : Nat) (bill : Bill) (amount : ℚ)
    (method : String) (h : st.bills.find? (fun b => b.id == id) = some bill) :
    ∃ b' st', recordPayment st id amount method = (some b', st') ∧
      b'.paidAmount = bill.paidAmount + amount ∧
      b'.paymentStatus =
        (if bill.paidAmount + amount ≥ bill.total then "paid" else "partial") ∧
      b'.paymentMethod = some method ∧
      b'.updatedAt = st.now ∧
      b'.total = bill.total ∧
      b' ∈ st'.bills := by
  have hbid : (bill.id == id) = true := by simpa using List.find?_some h
  have hmem : bill ∈ st.bills := List.mem_of_find?_eq_some h
  refine ⟨_, _, by rw [recordPayment, h], ?_, ?_, ?_, ?_, ?_, ?_⟩
  · simp [hbid]
  · simp [hbid]
  · simp [hbid]
  · simp [hbid]
  · simp [hbid]
  · refine List.mem_map.mpr ⟨bill, hmem, ?_⟩
    simp [hbid]

/-- Witness for `recordPayment_spec`: the spec's overshoot test — bill total
1000, nothing paid, payment of 1200 is accepted and yields `paidAmount`
1200 with status `"paid"`. -/
theorem recordPayment_spec_witness :
    billStore.bills.find? (fun b => b.id == 1) = some bill1000 ∧
    ∃ b' st', recordPayment billStore 1 1200 "card" = (some b', st') ∧
      b'.paidAmount = 1200 ∧ b'.paymentStatus = "paid" ∧
      b'.paymentMethod = some "card" ∧ b' ∈ st'.bills := by
  refine ⟨by decide, ?_⟩
  obtain ⟨b', st', heq, hpaid, hstatus, hmethod, _, htotal, hmem⟩ :=
    recordPayment_spec billStore 1 bill1000 1200 "card" (by decide)
  refine ⟨b', st', heq, ?_, ?_, hmethod, hmem⟩
  · rw [hpaid]; norm_num [bill1000]
  · rw [hstatus]; norm_num [bill1000]

/-- Claim C3 counterexample: against the claimed three-way payment-status rule, a
payment of amount 0 against an untouched bill of total 1000 leaves
`paidAmount = 0` but sets `paymentStatus` to `"partial"`, where the claimed
rule demands `"pending"`. -/
theorem recordPayment_status_inv_cex :
    ∃ b' st', recordPayment billStore 1 0 "cash" = (some b', st') ∧
      b'.paidAmount = 0 ∧ b'.paymentStatus = "partial" ∧
      specPaymentStatus b'.paidAmount b'.total = "pending" ∧
      b'.paymentStatus ≠ specPaymentStatus b'.paidAmount b'.total := by
  refine ⟨_, _, rfl, ?_, ?_, ?_, ?_⟩ <;>
    norm_num [bill1000, billStore, Store.empty, specPaymentStatus] <;> decide

/-- In each branch of `recordPayment`'s status computation the resulting
string decides the comparison of the new running total against the bill
total, and `"pending"` is unreachable. -/
theorem paidPartial (s t : ℚ) :
    ((if s ≥ t then "paid" else "partial") = "paid" ↔ s ≥ t) ∧
    ((if s ≥ t then "paid" else "partial") = "partial" ↔ s < t) ∧
    (if s ≥ t then "paid" else "partial") ≠ "pending" := by
  by_cases hge : s ≥ t
  · simp only [if_pos hge]
    refine ⟨by simpa using hge, ?_, by decide⟩
    simp only [show ¬("paid" = "partial") by decide, false_iff, not_lt]
    exact hge
  · simp only [if_neg hge]
    refine ⟨?_, by simpa using not_le.mp hge, by decide⟩
    simp only [show ¬("partial" = "paid") by decide, false_iff]
    exact hge

/-- Claim C3 (amended): after any successful `recordPayment`
the stored bill satisfies `paymentStatus = "paid"` iff `paidAmount ≥ total`
and `paymentStatus = "partial"` otherwise — a zero or negative running total
still yields `"partial"`, never `"pending"`. -/
theorem recordPayment_status_inv (st : Store) (id : Nat) (bill : Bill)
    (amount : ℚ) (method : String)
    (h : st.bills.find? (fun b => b.id == id) = some bill) :
    ∃ b' st', recordPayment st id amount method = (some b', st') ∧
      (b'.paymentStatus = "paid" ↔ b'.paidAmount ≥ b'.total) ∧
      (b'.paymentStatus = "partial" ↔ b'.paidAmount < b'.total) ∧
      b'.paymentStatus ≠ "pending" := by
  have hbid : (bill.id == id) = true := by simpa using List.find?_some h
  refine ⟨_, _, by rw [recordPayment, h], ?_, ?_, ?_⟩ <;> simp only [hbid, if_pos]
  · exact (paidPartial _ _).1
  · exact (paidPartial _ _).2.1
  · exact (paidPartial _ _).2.2

/-- Witness for `recordPayment_status_inv`: the zero-amount payment above
lands in the `"partial"` branch of the amended invariant. -/
theorem recordPayment_status_inv_witness :
    billStore.bills.find? (fun b => b.id == 1) = some bill1000 ∧
    ∃ b' st', recordPayment billStore 1 0 "cash" = (some b', st') ∧
      (b'.paymentStatus = "paid" ↔ b'.paidAmount ≥ b'.total) ∧
      (b'.paymentStatus = "partial" ↔ b'.paidAmount < b'.total) ∧
      b'.paymentStatus ≠ "pending" :=
  ⟨by decide, recordPayment_status_inv billStore 1 bill1000 0 "cash" (by decide)⟩

/-- When every item's client-supplied `amount` agrees with `quantity × rate`,
the handler's sum of amounts is the spec's sum of `quantity × rate`. -/
theorem sumAmounts_eq_sumQuantityRate (items : List BillItem)
    (h : ∀ i ∈ items, i.amount = i.quantity * i.rate) :
    sumAmounts items = sumQuantityRate items := by
  show items.foldl (fun (sum : ℚ) item => sum + item.amount) 0 =
    items.foldl (fun (sum : ℚ) item => sum + item.quantity * item.rate) 0
  exact List.foldl_ext _ _ 0 (fun a i hi => by rw [h i hi])

/-- A bill line item whose client-supplied `amount` (5) disagrees with its
`quantity × rate` (2 × 10 = 20). -/
def badItem : BillItem := { description := "dressing", quantity := 2, rate := 10, amount := 5 }

/-- Claim C4 counterexample: against the claimed bill-creation totals, the handler sums the
items' client-supplied `amount` fields, not `quantity × rate`, so an item
with `quantity = 2`, `rate = 10`, `amount = 5` yields `subtotal = 5` while
the claimed `Σ quantity × rate` is `20`. -/
theorem postBills_totals_cex :
    ∃ bill st', postBills Store.empty 7 [badItem] = (201, bill, st') ∧
      bill.subtotal = 5 ∧ sumQuantityRate [badItem] = 20 ∧
      bill.subtotal ≠ sumQuantityRate [badItem] := by
  refine ⟨_, _, rfl, ?_, ?_, ?_⟩ <;>
    norm_num [postBills, createBill, sumAmounts, sumQuantityRate, badItem, Store.empty]

/-- Claim C4 (amended): the stored bill's `subtotal` is the sum of
the items' client-supplied `amount` fields and `total = subtotal` (no tax or
discount); the claimed `Σ quantity × rate` form holds exactly when every
item's `amount` agrees with `quantity × rate` (which is how the client
computes amounts). -/
theorem postBills_totals (st : Store) (patientId : Nat) (items : List BillItem)
    (hne : items ≠ []) :
    ∃ bill st', postBills st patientId items = (201, bill, st') ∧
      bill.subtotal = sumAmounts items ∧
      bill.total = bill.subtotal ∧
      bill.paidAmount = 0 ∧
      bill.paymentStatus = "pending" ∧
      bill.items = items ∧
      bill ∈ st'.bills ∧
      ((∀ i ∈ items, i.amount = i.quantity * i.rate) →
        bill.subtotal = sumQuantityRate items) := by
  refine ⟨_, _, rfl, rfl, rfl, rfl, rfl, rfl, ?_, ?_⟩
  · exact List.mem_append_right _ (List.mem_singleton.mpr rfl)
  · exact fun h => sumAmounts_eq_sumQuantityRate items h

/-- Witness for `postBills_totals` at a concrete one-item bill
(quantity 3, rate 250, amount 750). -/
theorem postBills_totals_witness :
    ([({ description := "consult", quantity := 3, rate := 250, amount := 750 } : BillItem)] ≠
      ([] : List BillItem)) ∧
    ∃ bill st',
      postBills Store.empty 7
        [{ description := "consult", quantity := 3, rate := 250, amount := 750 }] =
        (201, bill, st') ∧
      bill.subtotal =
        sumAmounts [{ description := "consult", quantity := 3, rate := 250, amount := 750 }] ∧
      bill.total = bill.subtotal ∧
      bill.paidAmount = 0 ∧
      bill.paymentStatus = "pending" ∧
      bill.items = [{ description := "consult", quantity := 3, rate := 250, amount := 750 }] ∧
      bill ∈ st'.bills ∧
      ((∀ i ∈ [({ description := "consult", quantity := 3, rate := 250, amount := 750 } : BillItem)],
          i.amount = i.quantity * i.rate) →
        bill.subtotal =
          sumQuantityRate [{ description := "consult", quantity := 3, rate := 250, amount := 750 }]) :=
  ⟨by decide, postBills_totals Store.empty 7
    [{ description := "consult", quantity := 3, rate := 250, amount := 750 }] (by decide)⟩

/-! ## Status filters, missing-row discharge, missing-reference admission -/

/-- A store with one appointment, one lab test, one admitted admission on an
occupied bed, one patient and one pending bill — fixture for the
status-filter and discharge claims. -/
def filterStore : Store :=
  { users := []
    patients := [{ id := 3, patientId := "PAT-00001", firstName := "Jane"
                   lastName := "Doe", phone := "555" }]
    appointments := [{ id := 10, patientId := 3, doctorId := 4, status := "cancelled" }]
    labTests := [{ id := 11, patientId := 3, status := "pending" }]
    beds := [{ id := 20, wardId := 1, bedNumber := "B1", status := "occupied" }]
    admissions := [{ id := 30, patientId := 3, bedId := 20, doctorId := none
                     admissionDate := 5, dischargeDate := none, status := "admitted" }]
    bills := [bill1000]
    nextId := 40, now := 9 }

/-- Claim C5 counterexample: against the uniform status-filter claim, the admissions route
hands the literal query value `"all"` to the storage layer, which filters by
`status == "all"`, so a store with one admitted admission answers the
`status=all` request with the empty list instead of the full set. -/
theorem statusFilter_cex :
    filterStore.admissions.length = 1 ∧
    admissionsRoute filterStore (some "all") = [] := by
  constructor <;> decide

/-- Claim C5 (amended): status-filter pass-through — a concrete status is matched exactly
by all four listings and an absent status returns the full set; the `"all"`
value is mapped to "no filter" only by the appointments and lab-test routes,
while the admissions and bills routes pass it through as an exact-match
filter (returning nothing whenever no record carries the literal status
`"all"`). -/
theorem statusFilter_spec (st : Store) (s : String) (hs : s ≠ "all")
    (hadm : ∀ a ∈ st.admissions, a.status ≠ "all")
    (hbill : ∀ b ∈ st.bills, b.paymentStatus ≠ "all") :
    appointmentsRoute st (some s) = st.appointments.filter (fun a => a.status == s) ∧
    appointmentsRoute st none = st.appointments ∧
    appointmentsRoute st (some "all") = st.appointments ∧
    labTestsRoute st (some s) = st.labTests.filter (fun t => t.status == s) ∧
    labTestsRoute st none = st.labTests ∧
    labTestsRoute st (some "all") = st.labTests ∧
    admissionsRoute st (some s) = st.admissions.filter (fun a => a.status == s) ∧
    admissionsRoute st none = st.admissions ∧
    admissionsRoute st (some "all") = [] ∧
    billsRoute st (some s) = st.bills.filter (fun b => b.paymentStatus == s) ∧
    billsRoute st none = st.bills ∧
    billsRoute st (some "all") = [] := by
  have hbeq : ((some s == some "all") : Bool) = false := by
    simpa using hs
  refine ⟨?_, rfl, ?_, ?_, rfl, ?_, rfl, rfl, ?_, rfl, rfl, ?_⟩
  · simp [appointmentsRoute, hbeq, getAppointments]
  · simp [appointmentsRoute, getAppointments]
  · simp [labTestsRoute, hbeq, getLabTests]
  · simp [labTestsRoute, getLabTests]
  · exact List.filter_eq_nil_iff.mpr (fun a ha => by simpa using hadm a ha)
  · exact List.filter_eq_nil_iff.mpr (fun b hb => by simpa using hbill b hb)

/-- Witness for `statusFilter_spec` on the fixture store with the concrete
status `"cancelled"`. -/
theorem statusFilter_spec_witness :
    ("cancelled" ≠ "all") ∧ (∀ a ∈ filterStore.admissions, a.status ≠ "all") ∧
    (∀ b ∈ filterStore.bills, b.paymentStatus ≠ "all") ∧
    (appointmentsRoute filterStore (some "cancelled") =
        filterStore.appointments.filter (fun a => a.status == "cancelled") ∧
      appointmentsRoute filterStore none = filterStore.appointments ∧
      appointmentsRoute filterStore (some "all") = filterStore.appointments ∧
      labTestsRoute filterStore (some "cancelled") =
        filterStore.labTests.filter (fun t => t.status == "cancelled") ∧
      labTestsRoute filterStore none = filterStore.labTests ∧
      labTestsRoute filterStore (some "all") = filterStore.labTests ∧
      admissionsRoute filterStore (some "cancelled") =
        filterStore.admissions.filter (fun a => a.status == "cancelled") ∧
      admissionsRoute filterStore none = filterStore.admissions ∧
      admissionsRoute filterStore (some "all") = [] ∧
      billsRoute filterStore (some "cancelled") =
        filterStore.bills.filter (fun b => b.paymentStatus == "cancelled") ∧
      billsRoute filterStore none = filterStore.bills ∧
      billsRoute filterStore (some "all") = []) :=
  ⟨by decide, by decide, by decide,
    statusFilter_spec filterStore "cancelled" (by decide) (by decide) (by decide)⟩

/-- Claim C6: discharging an admission id that is not in the store returns
`none` and
leaves the whole store — beds included — exactly as it was. -/
theorem dischargePatient_missing (st : Store) (id : Nat)
    (h : ∀ a ∈ st.admissions, a.id ≠ id) :
    dischargePatient st id = (none, st) := by
  have hfind : st.admissions.find? (fun a => a.id == id) = none :=
    List.find?_eq_none.mpr (fun a ha => by simpa using h a ha)
  rw [dischargePatient, hfind]

/-- Witness for `dischargePatient_missing`: the fixture store has no
admission with id 99. -/
theorem dischargePatient_missing_witness :
    (∀ a ∈ filterStore.admissions, a.id ≠ 99) ∧
    dischargePatient filterStore 99 = (none, filterStore) :=
  ⟨by decide, dischargePatient_missing filterStore 99 (by decide)⟩

/-- Claim C7 counterexample: against the claimed 404 on admitting with
missing references,
in an empty store the insert's foreign-key violation is caught by the
route's catch-all, which answers 500 — not a NotFound-style 404. -/
theorem postAdmissions_missing_cex :
    postAdmissions Store.empty
        { patientId := 5, bedId := 9, doctorId := none, status := none } =
      (500, Store.empty) ∧
    (500 : Nat) ≠ 404 := by
  constructor <;> decide

/-- Claim C7 (amended): when the referenced patient or bed
does not exist, `POST /api/admissions` answers the generic 500 (the
foreign-key error is swallowed by the handler's catch-all) and the store is
untouched — no admission row is created and no bed status changes. -/
theorem postAdmissions_missing_ref (st : Store) (body : InsertAdmission)
    (h : (∀ p ∈ st.patients, p.id ≠ body.patientId) ∨
         (∀ b ∈ st.beds, b.id ≠ body.bedId)) :
    postAdmissions st body = (500, st) := by
  rw [postAdmissions, createAdmission]
  rcases h with hp | hb
  · have hfind : st.patients.find? (fun p => p.id == body.patientId) = none :=
      List.find?_eq_none.mpr (fun p hm => by simpa using hp p hm)
    rw [hfind]
    rfl
  · have hfind : st.beds.find? (fun b => b.id == body.bedId) = none :=
      List.find?_eq_none.mpr (fun b hm => by simpa using hb b hm)
    rw [hfind]
    by_cases hpat : (st.patients.find? (fun p => p.id == body.patientId)).isNone <;>
      simp [hpat]

/-- Witness for `postAdmissions_missing_ref`: the fixture store has no bed
with id 77. -/
theorem postAdmissions_missing_ref_witness :
    ((∀ p ∈ filterStore.patients, p.id ≠ (3 : Nat)) ∨
      (∀ b ∈ filterStore.beds, b.id ≠ 77)) ∧
    postAdmissions filterStore
        { patientId := 3, bedId := 77, doctorId := none, status := none } =
      (500, filterStore) :=
  ⟨Or.inr (by decide),
    postAdmissions_missing_ref filterStore
      { patientId := 3, bedId := 77, doctorId := none, status := none }
      (Or.inr (by decide))⟩

/-! ## Authentication middleware -/

/-- Claim C9 counterexample: against the universal 401 claim, with `REPLIT_DEPLOYMENT_ID`
unset the middleware installs a demo user, so a session-less
`POST /api/patients` is answered 201 and the patient row is inserted. -/
theorem isAuthenticated_cex :
    ∃ st',
      isAuthenticated false false
          (postPatients { firstName := "Eve", lastName := "Nobody", phone := "000" })
          Store.empty =
        (201, st') ∧
      st'.patients.length = 1 ∧ Store.empty.patients.length = 0 ∧
      (201 : Nat) ≠ 401 := by
  refine ⟨_, rfl, ?_, ?_, ?_⟩ <;> decide

/-- Claim C9 (amended): whenever the deployment id is
configured (the production path of `isAuthenticated`), a request without a
valid session to any guarded handler is answered 401 and the store is
returned untouched — the handler never runs, so nothing is mutated. -/
theorem isAuthenticated_unauthed (handler : Handler) (st : Store) :
    isAuthenticated true false handler st = (401, st) :=
  rfl

/-! ## upsertUser: login preserves the assigned role -/

/-- Claim C10: `upsertUser` on an existing user (the on-conflict path taken
on every
login) rewrites only `email`, `firstName`, `lastName`, `profileImageUrl` and
`updatedAt`; `role` (and `phone`, `createdAt`) are untouched on every row,
so a role assigned earlier via `updateUserRole` survives the login. -/
theorem upsertUser_preserves_role (st : Store) (u : UpsertUser) (existing : User)
    (h : st.users.find? (fun x => x.id == u.id) = some existing) :
    ∃ ret st', upsertUser st u = (ret, st') ∧
      ret.role = existing.role ∧
      ret.phone = existing.phone ∧
      ret.createdAt = existing.createdAt ∧
      ret.id = existing.id ∧
      ret.email = u.email ∧
      ret.firstName = u.firstName ∧
      ret.lastName = u.lastName ∧
      ret.profileImageUrl = u.profileImageUrl ∧
      ret.updatedAt = st.now ∧
      ret ∈ st'.users ∧
      List.Forall₂
        (fun old new =>
          new.role = old.role ∧ new.phone = old.phone ∧
          new.createdAt = old.createdAt ∧ new.id = old.id ∧
          (old.id ≠ u.id → new = old))
        st.users st'.users := by
  have hbid : (existing.id == u.id) = true := by simpa using List.find?_some h
  have hmem : existing ∈ st.users := List.mem_of_find?_eq_some h
  refine ⟨{ existing with email := u.email, firstName := u.firstName, lastName := u.lastName, profileImageUrl := u.profileImageUrl, updatedAt := st.now }, _, by rw [upsertUser, h], rfl, rfl, rfl, rfl, rfl, rfl, rfl, rfl, rfl, ?_, ?_⟩
  · refine List.mem_map.mpr ⟨existing, hmem, ?_⟩
    simp [hbid]
  · rw [List.forall₂_map_right_iff]
    refine List.forall₂_same.mpr (fun x hx => ?_)
    by_cases hxid : (x.id == u.id) = true
    · refine ⟨by simp [hxid], by simp [hxid], by simp [hxid], by simp [hxid], ?_⟩
      intro hne
      exact absurd (by simpa using hxid) hne
    · simp [hxid]

/-- A user who was made an admin earlier — fixture for the role-preservation
witness. -/
def adminUser : User :=
  { id := "u-7", email := some "old@x", firstName := some "Ada"
    lastName := some "Admin", profileImageUrl := none, role := "admin"
    phone := some "123", createdAt := 1, updatedAt := 2 }

/-- A store holding just `adminUser`. -/
def userStore : Store := { Store.empty with users := [adminUser], now := 3 }

/-- Witness for `upsertUser_preserves_role`: logging `u-7` in with fresh
OIDC claims keeps the previously assigned `"admin"` role. -/
theorem upsertUser_preserves_role_witness :
    userStore.users.find?
        (fun x => x.id == ("u-7" : String)) = some adminUser ∧
    ∃ ret st',
      upsertUser userStore
          { id := "u-7", email := some "new@x", firstName := some "Ada"
            lastName := some "Admin", profileImageUrl := some "pic" } =
        (ret, st') ∧
      ret.role = adminUser.role ∧
      ret.phone = adminUser.phone ∧
      ret.createdAt = adminUser.createdAt ∧
      ret.id = adminUser.id ∧
      ret.email = some "new@x" ∧
      ret.firstName = some "Ada" ∧
      ret.lastName = some "Admin" ∧
      ret.profileImageUrl = some "pic" ∧
      ret.updatedAt = userStore.now ∧
      ret ∈ st'.users ∧
      List.Forall₂
        (fun old new =>
          new.role = old.role ∧ new.phone = old.phone ∧
          new.createdAt = old.createdAt ∧ new.id = old.id ∧
          (old.id ≠ ("u-7" : String) → new = old))
        userStore.users st'.users :=
  ⟨by decide,
    upsertUser_preserves_role userStore
      { id := "u-7", email := some "new@x", firstName := some "Ada"
        lastName := some "Admin", profileImageUrl := some "pic" }
      adminUser (by decide)⟩

/-! ## Decimal rendering: reasoning layer

`decList` is a proof-side twin of `decChars` with clean recursion equations;
`decCharsGo_eq_decList` ties the executable fuel version to it. -/

/-- Decimal digits of `n`, most significant first (empty for 0). -/
def decList : Nat → List Char
  | 0 => []
  | n + 1 => decList ((n + 1) / 10) ++ [Nat.digitChar ((n + 1) % 10)]
decreasing_by exact Nat.div_lt_self (Nat.succ_pos n) (by norm_num)

/-- The fuel-driven renderer agrees with `decList` whenever the fuel covers
the argument. -/
theorem decCharsGo_eq_decList :
    ∀ fuel n acc, 1 ≤ n → n ≤ fuel → decCharsGo fuel n acc = decList n ++ acc := by
  intro fuel
  induction fuel with
  | zero => intro n acc h1 h2; omega
  | succ f ih =>
    intro n acc h1 h2
    obtain ⟨m, rfl⟩ : ∃ m, n = m + 1 := ⟨n - 1, by omega⟩
    by_cases h10 : (m + 1) / 10 = 0
    · simp [decCharsGo, h10, decList]
    · have hle : (m + 1) / 10 ≤ f := by
        have := Nat.div_lt_self (Nat.succ_pos m) (show 1 < 10 by norm_num)
        omega
      simp only [decCharsGo, if_neg h10]
      rw [ih ((m + 1) / 10) _ (by omega) hle, decList]
      simp

/-- For positive arguments `decChars` is `decList`. -/
theorem decChars_eq_decList (n : Nat) (h : 1 ≤ n) : decChars n = decList n := by
  rw [decChars, if_neg (by omega)]
  simpa using decCharsGo_eq_decList n n [] h le_rfl

/-- A number below `10 ^ k` renders in at most `k` digits. -/
theorem decList_length_le (k : Nat) : ∀ n, n < 10 ^ k → (decList n).length ≤ k := by
  induction k with
  | zero =>
    intro n h
    interval_cases n
    simp [decList]
  | succ k ih =>
    intro n h
    match n with
    | 0 => simp [decList]
    | m + 1 =>
      rw [decList, List.length_append]
      have hdiv : (m + 1) / 10 < 10 ^ k := by
        rw [Nat.div_lt_iff_lt_mul (by norm_num)]
        calc m + 1 < 10 ^ (k + 1) := h
          _ = 10 ^ k * 10 := by ring
      have := ih _ hdiv
      simp only [List.length_singleton]
      omega

/-- Every rendered character is a decimal digit. -/
theorem decList_isDigit (n : Nat) : ∀ c ∈ decList n, c.isDigit = true := by
  induction n using Nat.strong_induction_on with
  | _ n ih =>
    match n with
    | 0 => simp [decList]
    | m + 1 =>
      rw [decList]
      intro c hc
      rcases List.mem_append.mp hc with h1 | h2
      · exact ih _ (Nat.div_lt_self (Nat.succ_pos m) (by norm_num)) c h1
      · have hceq : c = Nat.digitChar ((m + 1) % 10) := by simpa using h2
        subst hceq
        have hm : (m + 1) % 10 < 10 := Nat.mod_lt _ (by norm_num)
        revert hm
        generalize (m + 1) % 10 = d
        intro hm
        interval_cases d <;> decide

/-- Code of a digit character back to its value. -/
theorem digitChar_toNat (d : Nat) (h : d < 10) : (Nat.digitChar d).toNat - 48 = d := by
  interval_cases d <;> decide

/-- Numeric value of a digit string (most significant first). -/
def digitsVal (l : List Char) : Nat :=
  l.foldl (fun v c => v * 10 + (c.toNat - 48)) 0

/-- Folding the rendered digits of `n` onto accumulator `a` yields
`a * 10 ^ digits + n`. -/
theorem foldl_decList (n : Nat) :
    ∀ a : Nat, (decList n).foldl (fun v c => v * 10 + (c.toNat - 48)) a =
      a * 10 ^ (decList n).length + n := by
  induction n using Nat.strong_induction_on with
  | _ n ih =>
    match n with
    | 0 => intro a; simp [decList]
    | m + 1 =>
      intro a
      rw [decList, List.foldl_append]
      simp only [List.foldl_cons, List.foldl_nil]
      rw [ih ((m + 1) / 10) (Nat.div_lt_self (Nat.succ_pos m) (by norm_num)) a]
      rw [digitChar_toNat _ (Nat.mod_lt _ (by norm_num))]
      rw [List.length_append, List.length_singleton, Nat.pow_succ]
      have hdm := Nat.div_add_mod (m + 1) 10
      set L := (decList ((m + 1) / 10)).length
      set s := a * 10 ^ L with hs
      rw [show a * (10 ^ L * 10) = s * 10 by rw [hs]; ring]
      omega

/-- Left-padding with `'0'` does not change the numeric value. -/
theorem digitsVal_padList (w : Nat) (l : List Char) :
    digitsVal (List.replicate w '0' ++ l) = digitsVal l := by
  rw [digitsVal, digitsVal, List.foldl_append]
  congr 1
  induction w with
  | zero => rfl
  | succ k ihk => simpa [List.replicate_succ] using ihk

/-- Parse the numeric part of a generated code: drop the 4-character prefix
(`PAT-` / `INV-`) and read the remaining digits. -/
def decodeCode (s : String) : Nat :=
  digitsVal (s.data.drop 4)

/-- The characters of a generated patient code. -/
theorem mkPatientCode_data (n : Nat) :
    (mkPatientCode n).data = 'P' :: 'A' :: 'T' :: '-' :: padList 5 (decChars n) := by
  rw [mkPatientCode, String.data_append]
  rfl

/-- The characters of a generated invoice number. -/
theorem mkBillNumber_data (n : Nat) :
    (mkBillNumber n).data = 'I' :: 'N' :: 'V' :: '-' :: padList 6 (decChars n) := by
  rw [mkBillNumber, String.data_append]
  rfl

/-- Decoding a generated patient code recovers the sequence number. -/
theorem decodeCode_mkPatientCode (n : Nat) (h : 1 ≤ n) :
    decodeCode (mkPatientCode n) = n := by
  rw [decodeCode, mkPatientCode_data]
  show digitsVal (padList 5 (decChars n)) = n
  rw [padList, digitsVal_padList, decChars_eq_decList n h]
  simpa [digitsVal] using foldl_decList n 0

/-- Decoding a generated invoice number recovers the sequence number. -/
theorem decodeCode_mkBillNumber (n : Nat) (h : 1 ≤ n) :
    decodeCode (mkBillNumber n) = n := by
  rw [decodeCode, mkBillNumber_data]
  show digitsVal (padList 6 (decChars n)) = n
  rw [padList, digitsVal_padList, decChars_eq_decList n h]
  simpa [digitsVal] using foldl_decList n 0

/-- `s` consists of the 4-character prefix `pre` followed by exactly `width`
decimal digits (the `PAT-\d{5}` / `INV-\d{6}` shape). -/
def prefixedDigits (pre : List Char) (width : Nat) (s : String) : Prop :=
  s.data.take 4 = pre ∧ (s.data.drop 4).length = width ∧
    ∀ c ∈ s.data.drop 4, c.isDigit = true

/-- Padded rendering of a bounded positive number has exactly `w` digit
characters. -/
theorem padList_decChars_spec (w n : Nat) (h1 : 1 ≤ n) (h : n < 10 ^ w) :
    (padList w (decChars n)).length = w ∧
      ∀ c ∈ padList w (decChars n), c.isDigit = true := by
  rw [decChars_eq_decList n h1]
  have hlen : (decList n).length ≤ w := decList_length_le w n h
  constructor
  · rw [padList, List.length_append, List.length_replicate]
    omega
  · intro c hc
    rcases List.mem_append.mp hc with hpad | hdig
    · rw [List.eq_of_mem_replicate hpad]
      decide
    · exact decList_isDigit n c hdig

/-- Generated patient codes match `PAT-` + exactly five digits while the
patient count stays below 99999. -/
theorem mkPatientCode_format (n : Nat) (h1 : 1 ≤ n) (h : n ≤ 99999) :
    prefixedDigits ['P', 'A', 'T', '-'] 5 (mkPatientCode n) := by
  obtain ⟨hlen, hdig⟩ := padList_decChars_spec 5 n h1 (by norm_num; omega)
  refine ⟨?_, ?_, ?_⟩ <;> rw [mkPatientCode_data]
  · rfl
  · exact hlen
  · exact hdig

/-- Generated invoice numbers match `INV-` + exactly six digits while the
bill count stays below 999999. -/
theorem mkBillNumber_format (n : Nat) (h1 : 1 ≤ n) (h : n ≤ 999999) :
    prefixedDigits ['I', 'N', 'V', '-'] 6 (mkBillNumber n) := by
  obtain ⟨hlen, hdig⟩ := padList_decChars_spec 6 n h1 (by norm_num; omega)
  refine ⟨?_, ?_, ?_⟩ <;> rw [mkBillNumber_data]
  · rfl
  · exact hlen
  · exact hdig

/-- Claim C8: identifier generation — a new patient's code is `PAT-` + the 5-digit
zero-padded `(existing patient count + 1)` and a new bill's number is
`INV-` + the 6-digit zero-padded `(existing bill count + 1)`; under
sequential creation the decoded sequence numbers of successive codes
increase strictly, and the codes match `PAT-\d{5}` / `INV-\d{6}` as long as
the counts stay within the padded width. -/
theorem idGeneration (st : Store) (p q : InsertPatient) (pid pid₂ : Nat)
    (items items₂ : List BillItem) (sub tot sub₂ tot₂ : ℚ)
    (hp : st.patients.length + 1 ≤ 99999) (hb : st.bills.length + 1 ≤ 999999) :
    ∃ pat st₁ pat₂ st₂ bill bst₁ bill₂ bst₂,
      createPatient st p = (pat, st₁) ∧
      createPatient st₁ q = (pat₂, st₂) ∧
      createBill st pid items sub tot = (bill, bst₁) ∧
      createBill bst₁ pid₂ items₂ sub₂ tot₂ = (bill₂, bst₂) ∧
      pat.patientId = mkPatientCode (st.patients.length + 1) ∧
      pat₂.patientId = mkPatientCode (st.patients.length + 2) ∧
      bill.billNumber = mkBillNumber (st.bills.length + 1) ∧
      bill₂.billNumber = mkBillNumber (st.bills.length + 2) ∧
      decodeCode pat.patientId = st.patients.length + 1 ∧
      decodeCode pat₂.patientId = st.patients.length + 2 ∧
      decodeCode pat.patientId < decodeCode pat₂.patientId ∧
      decodeCode bill.billNumber = st.bills.length + 1 ∧
      decodeCode bill₂.billNumber = st.bills.length + 2 ∧
      decodeCode bill.billNumber < decodeCode bill₂.billNumber ∧
      prefixedDigits ['P', 'A', 'T', '-'] 5 pat.patientId ∧
      prefixedDigits ['I', 'N', 'V', '-'] 6 bill.billNumber := by
  refine ⟨_, _, _, _, _, _, _, _, rfl, rfl, rfl, rfl, rfl, ?_, rfl, ?_,
    decodeCode_mkPatientCode _ (by omega), ?_, ?_,
    decodeCode_mkBillNumber _ (by omega), ?_, ?_,
    mkPatientCode_format _ (by omega) hp, mkBillNumber_format _ (by omega) hb⟩
  · simp only [List.length_append, List.length_singleton]
  · simp only [List.length_append, List.length_singleton]
  · simp only [List.length_append, List.length_singleton]
    rw [decodeCode_mkPatientCode _ (by omega)]
  · simp only [List.length_append, List.length_singleton]
    rw [decodeCode_mkPatientCode _ (by omega),
      decodeCode_mkPatientCode _ (by omega)]
    omega
  · simp only [List.length_append, List.length_singleton]
    rw [decodeCode_mkBillNumber _ (by omega)]
  · simp only [List.length_append, List.length_singleton]
    rw [decodeCode_mkBillNumber _ (by omega),
      decodeCode_mkBillNumber _ (by omega)]
    omega

/-- Witness for `idGeneration` from the empty store: codes `PAT-00001`,
`PAT-00002` and invoice numbers `INV-000001`, `INV-000002`. -/
theorem idGeneration_witness :
    (Store.empty.patients.length + 1 ≤ 99999) ∧
    (Store.empty.bills.length + 1 ≤ 999999) ∧
    ∃ pat st₁ pat₂ st₂ bill bst₁ bill₂ bst₂,
      createPatient Store.empty { firstName := "A", lastName := "B", phone := "1" } =
        (pat, st₁) ∧
      createPatient st₁ { firstName := "C", lastName := "D", phone := "2" } =
        (pat₂, st₂) ∧
      createBill Store.empty 1 [] 0 0 = (bill, bst₁) ∧
      createBill bst₁ 2 [] 0 0 = (bill₂, bst₂) ∧
      pat.patientId = mkPatientCode (Store.empty.patients.length + 1) ∧
      pat₂.patientId = mkPatientCode (Store.empty.patients.length + 2) ∧
      bill.billNumber = mkBillNumber (Store.empty.bills.length + 1) ∧
      bill₂.billNumber = mkBillNumber (Store.empty.bills.length + 2) ∧
      decodeCode pat.patientId = Store.empty.patients.length + 1 ∧
      decodeCode pat₂.patientId = Store.empty.patients.length + 2 ∧
      decodeCode pat.patientId < decodeCode pat₂.patientId ∧
      decodeCode bill.billNumber = Store.empty.bills.length + 1 ∧
      decodeCode bill₂.billNumber = Store.empty.bills.length + 2 ∧
      decodeCode bill.billNumber < decodeCode bill₂.billNumber ∧
      prefixedDigits ['P', 'A', 'T', '-'] 5 pat.patientId ∧
      prefixedDigits ['I', 'N', 'V', '-'] 6 bill.billNumber :=
  ⟨by decide, by decide,
    idGeneration Store.empty { firstName := "A", lastName := "B", phone := "1" }
      { firstName := "C", lastName := "D", phone := "2" } 1 2 [] [] 0 0 0 0
      (by decide) (by decide)⟩

/-! ## The admission/bed invariant -/

/-- A bed is `"occupied"` exactly when an `"admitted"` admission references
it (the spec's cross-entity invariant). -/
def bedsAdmsConsistent (st : Store) : Prop :=
  ∀ b ∈ st.beds,
    (b.status = "occupied" ↔
      ∃ a ∈ st.admissions, a.bedId = b.id ∧ a.status = "admitted")

/-- At most one `"admitted"` admission references any bed. -/
def atMostOneAdmitted (st : Store) : Prop :=
  ∀ a₁ ∈ st.admissions, ∀ a₂ ∈ st.admissions,
    a₁.status = "admitted" → a₂.status = "admitted" →
      a₁.bedId = a₂.bedId → a₁ = a₂

/-- The full admission/bed invariant. -/
def bedAdmInv (st : Store) : Prop :=
  bedsAdmsConsistent st ∧ atMostOneAdmitted st

/-- Primary-key uniqueness of `admissions.id` (enforced by the schema). -/
def admissionKeysNodup (st : Store) : Prop :=
  (st.admissions.map Admission.id).Nodup

/-- Primary-key uniqueness of `beds.id` (enforced by the schema). -/
def bedKeysNodup (st : Store) : Prop :=
  (st.beds.map Bed.id).Nodup

/-- In a list with pairwise-distinct keys, `find?` on a member's key returns
exactly that member. -/
theorem find?_key_of_mem {α : Type} (key : α → Nat) :
    ∀ (l : List α), (l.map key).Nodup → ∀ a ∈ l,
      l.find? (fun x => key x == key a) = some a := by
  intro l
  induction l with
  | nil => intro _ a ha; cases ha
  | cons hd tl ih =>
    intro hnd a ha
    have hnd' : (key hd ∉ tl.map key) ∧ (tl.map key).Nodup := by
      rw [List.map_cons, List.nodup_cons] at hnd
      exact hnd
    by_cases hk : (key hd == key a) = true
    · have hkeq : key hd = key a := by simpa using hk
      have hda : hd = a := by
        rcases List.mem_cons.mp ha with rfl | hmem
        · rfl
        · exact absurd (hkeq ▸ List.mem_map_of_mem key hmem) hnd'.1
      subst hda
      exact List.find?_cons_of_pos _ hk
    · have ha' : a ∈ tl := by
        rcases List.mem_cons.mp ha with rfl | hmem
        · simp at hk
        · exact hmem
      rw [List.find?_cons_of_neg _ (by simpa using hk)]
      exact ih hnd'.2 a ha'

/-- Admitting into an existing available bed (with an existing patient and
the status left to its default) succeeds, marks the admission `"admitted"`
and the bed `"occupied"`, and preserves the admission/bed invariant. -/
theorem createAdmission_admit (st : Store) (ins : InsertAdmission) (b : Bed)
    (hinv : bedAdmInv st)
    (hb : b ∈ st.beds) (havail : b.status = "available")
    (hbid : ins.bedId = b.id) (hstat : ins.status = none)
    (hp : ∃ p ∈ st.patients, p.id = ins.patientId) :
    ∃ a st', createAdmission st ins = Except.ok (a, st') ∧
      a.status = "admitted" ∧ a ∈ st'.admissions ∧ a.bedId = ins.bedId ∧
      (∃ b' ∈ st'.beds, b'.id = ins.bedId) ∧
      (∀ b' ∈ st'.beds, b'.id = ins.bedId → b'.status = "occupied") ∧
      bedAdmInv st' := by
  obtain ⟨p, hpmem, hpid⟩ := hp
  have hpfind : (st.patients.find? (fun x => x.id == ins.patientId)).isNone = false := by
    rcases hf : st.patients.find? (fun x => x.id == ins.patientId) with _ | v
    · exact absurd (by simpa using List.find?_eq_none.mp hf p hpmem) (by simp [hpid])
    · rw [hf]; rfl
  have hbfind : (st.beds.find? (fun x => x.id == ins.bedId)).isNone = false := by
    rcases hf : st.beds.find? (fun x => x.id == ins.bedId) with _ | v
    · exact absurd (by simpa using List.find?_eq_none.mp hf b hb) (by simp [hbid])
    · rw [hf]; rfl
  rw [createAdmission, hpfind, hbfind]
  simp only [Bool.false_eq_true, if_false]
  set newAdm : Admission :=
    { id := st.nextId, patientId := ins.patientId, bedId := ins.bedId
      doctorId := ins.doctorId, admissionDate := st.now, dischargeDate := none
      status := ins.status.getD "admitted" } with hnewAdm
  have hnewStatus : newAdm.status = "admitted" := by rw [hnewAdm]; simp [hstat]
  refine ⟨newAdm, _, rfl, hnewStatus, ?_, rfl, ?_, ?_, ?_, ?_⟩
  · exact List.mem_append_right _ (List.mem_singleton.mpr rfl)
  · refine ⟨{ b with status := "occupied" }, ?_, hbid.symm⟩
    refine List.mem_map.mpr ⟨b, hb, ?_⟩
    simp [hbid]
  · intro b' hb' hb'id
    rcases List.mem_map.mp hb' with ⟨b₀, hb₀, rfl⟩
    by_cases hbb : (b₀.id == ins.bedId) = true
    · simp [hbb]
    · rw [if_neg hbb] at hb'id ⊢
      exact absurd (by simpa using hb'id) hbb
  · -- consistency after the two writes
    intro b' hb'
    rcases List.mem_map.mp hb' with ⟨b₀, hb₀, rfl⟩
    by_cases hbb : (b₀.id == ins.bedId) = true
    · rw [if_pos hbb]
      constructor
      · intro _
        exact ⟨newAdm, List.mem_append_right _ (List.mem_singleton.mpr rfl),
          (show b₀.id = ins.bedId by simpa using hbb).symm, hnewStatus⟩
      · intro _
        rfl
    · rw [if_neg hbb]
      rw [(hinv.1 b₀ hb₀)]
      constructor
      · rintro ⟨x, hx, hxb, hxs⟩
        exact ⟨x, List.mem_append_left _ hx, hxb, hxs⟩
      · rintro ⟨x, hx, hxb, hxs⟩
        rcases List.mem_append.mp hx with hxo | hxn
        · exact ⟨x, hxo, hxb, hxs⟩
        · rw [List.mem_singleton.mp hxn] at hxb
          exact absurd (by simpa using hxb.symm) hbb
  · -- at most one admitted admission per bed after the insert
    intro a₁ ha₁ a₂ ha₂ hs₁ hs₂ hbed
    have hfresh : ∀ x ∈ st.admissions, x.status = "admitted" →
        x.bedId = newAdm.bedId → False := by
      intro x hx hxs hxb
      have hocc : b.status = "occupied" :=
        (hinv.1 b hb).mpr ⟨x, hx, by rw [hxb]; exact hbid, hxs⟩
      rw [havail] at hocc
      exact absurd hocc (by decide)
    rcases List.mem_append.mp ha₁ with h₁ | h₁ <;>
      rcases List.mem_append.mp ha₂ with h₂ | h₂
    · exact hinv.2 a₁ h₁ a₂ h₂ hs₁ hs₂ hbed
    · rw [List.mem_singleton.mp h₂] at hbed
      exact absurd hbed.symm (fun he => hfresh a₁ h₁ hs₁ he.symm)
    · rw [List.mem_singleton.mp h₁] at hbed
      exact absurd hbed (fun he => hfresh a₂ h₂ hs₂ he.symm)
    · rw [List.mem_singleton.mp h₁, List.mem_singleton.mp h₂]

/-- Discharging an existing admitted admission marks it `"discharged"` with
a discharge date, frees its bed, and preserves the admission/bed
invariant. -/
theorem dischargePatient_discharge (st : Store) (adm : Admission)
    (hinv : bedAdmInv st) (hak : admissionKeysNodup st)
    (ha : adm ∈ st.admissions) (hadm : adm.status = "admitted") :
    ∃ a st', dischargePatient st adm.id = (some a, st') ∧
      a.status = "discharged" ∧ a.dischargeDate = some st.now ∧
      a.bedId = adm.bedId ∧ a.id = adm.id ∧ a ∈ st'.admissions ∧
      (∀ b' ∈ st'.beds, b'.id = adm.bedId → b'.status = "available") ∧
      bedAdmInv st' := by
  have hfind : st.admissions.find? (fun x => x.id == adm.id) = some adm :=
    find?_key_of_mem Admission.id st.admissions hak adm ha
  have hself : (adm.id == adm.id) = true := by simp
  rw [dischargePatient, hfind]
  simp only [hself, if_true, if_pos]
  set a' : Admission :=
    { adm with status := "discharged", dischargeDate := some st.now } with ha'
  -- distinct rows have distinct ids
  have hkey : ∀ x ∈ st.admissions, x.id = adm.id → x = adm := fun x hx hxe =>
    List.inj_on_of_nodup_map hak hx ha hxe
  -- after the update, no admitted admission references adm's bed
  have hgone : ∀ x ∈ st.admissions,
      ((if (x.id == adm.id) = true then
          { x with status := "discharged", dischargeDate := some st.now }
        else x).status = "admitted") →
      (if (x.id == adm.id) = true then
          { x with status := "discharged", dischargeDate := some st.now }
        else x).bedId = adm.bedId → False := by
    intro x hx hxs hxb
    by_cases hxid : (x.id == adm.id) = true
    · rw [if_pos hxid] at hxs
      exact absurd hxs (by simp)
    · rw [if_neg hxid] at hxs hxb
      have hxeq : x = adm := hinv.2 x hx adm ha hxs hadm hxb
      exact hxid (by simp [hxeq])
  refine ⟨a', _, rfl, rfl, rfl, rfl, rfl, ?_, ?_, ?_, ?_⟩
  · refine List.mem_map.mpr ⟨adm, ha, ?_⟩
    simp [hself]
  · intro b' hb' hb'id
    rcases List.mem_map.mp hb' with ⟨b₀, hb₀, rfl⟩
    by_cases hbb : (b₀.id == a'.bedId) = true
    · simp [hbb]
    · rw [if_neg hbb] at hb'id ⊢
      exact absurd (by simpa [ha'] using hb'id) hbb
  · -- consistency after the two writes
    intro b' hb'
    rcases List.mem_map.mp hb' with ⟨b₀, hb₀, rfl⟩
    by_cases hbb : (b₀.id == a'.bedId) = true
    · rw [if_pos hbb]
      have hb₀id : b₀.id = adm.bedId := by simpa [ha'] using hbb
      constructor
      · intro hfalse
        exact absurd hfalse (by simp)
      · rintro ⟨x', hx', hxb, hxs⟩
        rcases List.mem_map.mp hx' with ⟨x, hx, rfl⟩
        exact (hgone x hx hxs (hxb.trans hb₀id)).elim
    · rw [if_neg hbb]
      have hb₀id : ¬(b₀.id = adm.bedId) := fun he =>
        hbb (by simpa [ha'] using he)
      rw [(hinv.1 b₀ hb₀)]
      constructor
      · rintro ⟨x, hx, hxb, hxs⟩
        have hxid : ¬(x.id == adm.id) = true := by
          intro hxe
          have hxa : x = adm := hkey x hx (by simpa using hxe)
          rw [hxa] at hxb
          exact hb₀id hxb.symm
        refine ⟨_, List.mem_map.mpr ⟨x, hx, rfl⟩, ?_, ?_⟩
        · rw [if_neg hxid]
          exact hxb
        · rw [if_neg hxid]
          exact hxs
      · rintro ⟨x', hx', hxb, hxs⟩
        rcases List.mem_map.mp hx' with ⟨x, hx, rfl⟩
        by_cases hxid : (x.id == adm.id) = true
        · rw [if_pos hxid] at hxs
          exact absurd hxs (by simp)
        · rw [if_neg hxid] at hxb hxs
          exact ⟨x, hx, hxb, hxs⟩
  · -- at most one admitted admission per bed after the update
    intro a₁ ha₁ a₂ ha₂ hs₁ hs₂ hbed
    rcases List.mem_map.mp ha₁ with ⟨x, hx, rfl⟩
    rcases List.mem_map.mp ha₂ with ⟨y, hy, rfl⟩
    by_cases hxid : (x.id == adm.id) = true
    · rw [if_pos hxid] at hs₁
      exact absurd hs₁ (by simp)
    · by_cases hyid : (y.id == adm.id) = true
      · rw [if_pos hyid] at hs₂
        exact absurd hs₂ (by simp)
      · rw [if_neg hxid] at hs₁ hbed ⊢
        rw [if_neg hyid] at hs₂ hbed ⊢
        exact hinv.2 x hx y hy hs₁ hs₂ hbed

/-- Claim C1: admission/bed synchronization — in any state satisfying the invariant
(bed `"occupied"` iff an `"admitted"` admission references it, at most one
such admission per bed, admission ids unique as the schema's primary key
guarantees), `createAdmission` on an existing available bed with an existing
patient yields an `"admitted"` admission and an `"occupied"` bed, and
`dischargePatient` on an existing admitted admission yields a
`"discharged"` admission with a discharge date and an `"available"` bed;
both preserve the invariant. -/
theorem admissionBedSync (st : Store) (ins : InsertAdmission) (b : Bed)
    (adm : Admission) (hinv : bedAdmInv st) (hak : admissionKeysNodup st) :
    (b ∈ st.beds → b.status = "available" → ins.bedId = b.id →
      ins.status = none → (∃ p ∈ st.patients, p.id = ins.patientId) →
      ∃ a st', createAdmission st ins = Except.ok (a, st') ∧
        a.status = "admitted" ∧ a ∈ st'.admissions ∧ a.bedId = ins.bedId ∧
        (∃ b' ∈ st'.beds, b'.id = ins.bedId) ∧
        (∀ b' ∈ st'.beds, b'.id = ins.bedId → b'.status = "occupied") ∧
        bedAdmInv st') ∧
    (adm ∈ st.admissions → adm.status = "admitted" →
      ∃ a st', dischargePatient st adm.id = (some a, st') ∧
        a.status = "discharged" ∧ a.dischargeDate = some st.now ∧
        a.bedId = adm.bedId ∧ a.id = adm.id ∧ a ∈ st'.admissions ∧
        (∀ b' ∈ st'.beds, b'.id = adm.bedId → b'.status = "available") ∧
        bedAdmInv st') :=
  ⟨fun hb hav hbid hstat hp =>
      createAdmission_admit st ins b hinv hb hav hbid hstat hp,
    fun ha hadm => dischargePatient_discharge st adm hinv hak ha hadm⟩

/-- A ward store satisfying the invariant: bed 20 occupied by admission 30,
bed 21 available, patient 3 registered. -/
def wardStore : Store :=
  { users := []
    patients := [{ id := 3, patientId := "PAT-00001", firstName := "Jane"
                   lastName := "Doe", phone := "555" }]
    appointments := []
    labTests := []
    beds := [{ id := 20, wardId := 1, bedNumber := "B1", status := "occupied" },
             { id := 21, wardId := 1, bedNumber := "B2", status := "available" }]
    admissions := [{ id := 30, patientId := 3, bedId := 20, doctorId := none
                     admissionDate := 5, dischargeDate := none, status := "admitted" }]
    bills := []
    nextId := 40, now := 9 }

/-- The admitted admission occupying bed 20 of `wardStore`. -/
def adm30 : Admission :=
  { id := 30, patientId := 3, bedId := 20, doctorId := none
    admissionDate := 5, dischargeDate := none, status := "admitted" }

/-- Witness for `admissionBedSync`: in `wardStore`, admit patient 3 into the
available bed 21 and discharge admission 30 from bed 20. -/
theorem admissionBedSync_witness :
    bedAdmInv wardStore ∧ admissionKeysNodup wardStore ∧
    (∃ a st',
      createAdmission wardStore
          { patientId := 3, bedId := 21, doctorId := none, status := none } =
        Except.ok (a, st') ∧
      a.status = "admitted" ∧ a ∈ st'.admissions ∧ a.bedId = 21 ∧
      (∃ b' ∈ st'.beds, b'.id = 21) ∧
      (∀ b' ∈ st'.beds, b'.id = 21 → b'.status = "occupied") ∧
      bedAdmInv st') ∧
    (∃ a st', dischargePatient wardStore 30 = (some a, st') ∧
      a.status = "discharged" ∧ a.dischargeDate = some wardStore.now ∧
      a.bedId = 20 ∧ a.id = 30 ∧ a ∈ st'.admissions ∧
      (∀ b' ∈ st'.beds, b'.id = 20 → b'.status = "available") ∧
      bedAdmInv st') := by
  have hinv : bedAdmInv wardStore := by
    unfold bedAdmInv bedsAdmsConsistent atMostOneAdmitted
    decide
  have hak : admissionKeysNodup wardStore := by
    unfold admissionKeysNodup
    decide
  have h := admissionBedSync wardStore
    { patientId := 3, bedId := 21, doctorId := none, status := none }
    { id := 21, wardId := 1, bedNumber := "B2", status := "available" }
    adm30 hinv hak
  refine ⟨hinv, hak, ?_, ?_⟩
  · exact h.1 (by decide) (by decide) (by decide) (by decide)
      ⟨{ id := 3, patientId := "PAT-00001", firstName := "Jane", lastName := "Doe", phone := "555" },
        by decide, by decide⟩
  · exact h.2 (by decide) (by decide)

end Medicare
